import Mathlib

/-!
Shallow embedding of the document-assembly engine of `src/app.py`
(an event-report generator that mutates a python-docx document tree),
together with proofs checking the specification's claims against it.

Strings are Lean `String`s; Python's substring test (`tok in s`) and
`str.replace` are embedded as executable functions on the underlying
character lists.  Display widths and font sizes are EMU naturals
(1 inch = 914400 EMU, 1 pt = 12700 EMU), matching python-docx's
`Inches`/`Pt` helpers.
-/

namespace ReportGen

/-- Python `s.startswith(pat)` on character lists. -/
def isPre : List Char → List Char → Bool
  | [], _ => true
  | _ :: _, [] => false
  | a :: as, b :: bs => a == b && isPre as bs

/-- Python `pat in s` (substring containment) on character lists. -/
def containsTok (pat : List Char) : List Char → Bool
  | [] => pat.isEmpty
  | c :: rest => isPre pat (c :: rest) || containsTok pat rest

/-- Left-to-right, non-overlapping replacement (Python `str.replace`),
with explicit fuel so the kernel can evaluate it; `fuel = s.length`
suffices because every step consumes at least one character of `s`
(the program only ever replaces non-empty tokens). -/
def replaceFuel (pat rep : List Char) : Nat → List Char → List Char
  | 0, s => s
  | _ + 1, [] => []
  | fuel + 1, c :: rest =>
    if isPre pat (c :: rest) then
      rep ++ replaceFuel pat rep fuel ((c :: rest).drop pat.length)
    else
      c :: replaceFuel pat rep fuel rest

/-- Python `tok in s` for strings. -/
def pyContains (s tok : String) : Bool := containsTok tok.data s.data

/-- Python `s.replace(pat, rep)`; every token the program replaces is a
non-empty literal, so the empty-pattern corner of Python's semantics is
not modelled (it returns `s` here). -/
def pyReplace (s pat rep : String) : String :=
  if pat.data.isEmpty then s else ⟨replaceFuel pat.data rep.data s.data.length s.data⟩

/-- Python `str(value or "")`: `None` and `""` both render as `""`. -/
def strOrEmpty : Option String → String
  | none => ""
  | some s => s

/-- python-docx `WD_BREAK` kinds used by the code (page and line break). -/
inductive Brk
  | page
  | line
  deriving DecidableEq, Repr

/-- python-docx `WD_ALIGN_PARAGRAPH` values used by the code. -/
inductive Align
  | left
  | center
  deriving DecidableEq, Repr

/-- A run: a span of styled text inside a paragraph; pictures and breaks
added through `run.add_picture` / `run.add_break` live on the run.
Picture entries carry `(path, display-width-in-EMU)`. -/
structure Run where
  text : String := ""
  bold : Option Bool := none
  fontName : Option String := none
  fontSize : Option Nat := none
  pics : List (String × Nat) := []
  brks : List Brk := []
  deriving DecidableEq, Repr

/-- A paragraph: ordered runs plus the paragraph-format fields the code
touches (`alignment`, `space_before`, `space_after`, `line_spacing`,
`keep_together`, `keep_with_next`). -/
structure Paragraph where
  runs : List Run := []
  alignment : Option Align := none
  spaceBefore : Option Nat := none
  spaceAfter : Option Nat := none
  lineSpacing : Option Nat := none
  keepTogether : Option Bool := none
  keepWithNext : Option Bool := none
  deriving DecidableEq, Repr

/-- python-docx `paragraph.text`: concatenation of the run texts. -/
def Paragraph.text (p : Paragraph) : String := String.join (p.runs.map Run.text)

/-- A table cell holds a list of paragraphs. -/
structure Cell where
  paragraphs : List Paragraph := []
  deriving DecidableEq, Repr

structure TableRow where
  cells : List Cell := []
  deriving DecidableEq, Repr

structure Table where
  rows : List TableRow := []
  style : Option String := none
  deriving DecidableEq, Repr

/-- A top-level body block: paragraph or table, in document order. -/
inductive Block
  | para (p : Paragraph)
  | table (t : Table)
  deriving DecidableEq, Repr

/-- Header or footer contents of a section. -/
structure HeaderFooter where
  paragraphs : List Paragraph := []
  tables : List Table := []
  deriving DecidableEq, Repr

structure Section where
  header : HeaderFooter := {}
  footer : HeaderFooter := {}
  deriving DecidableEq, Repr

/-- The loaded document: ordered body blocks plus sections.
`doc.paragraphs` is the paragraph blocks of `body` in order, and
`doc.tables` the table blocks, as in python-docx. -/
structure DocTree where
  body : List Block := []
  sections : List Section := []
  deriving DecidableEq, Repr

/-- The paragraph blocks of a body-block list, in order (python-docx
`doc.paragraphs`). -/
def blocksParas : List Block → List Paragraph
  | [] => []
  | .para p :: rest => p :: blocksParas rest
  | .table _ :: rest => blocksParas rest

/-- The table blocks of a body-block list, in order (python-docx
`doc.tables`). -/
def blocksTables : List Block → List Table
  | [] => []
  | .para _ :: rest => blocksTables rest
  | .table t :: rest => t :: blocksTables rest

/-- All paragraphs of a table, in row/cell order. -/
def Table.allParas (t : Table) : List Paragraph :=
  t.rows.flatMap fun r => r.cells.flatMap fun c => c.paragraphs

/-- All paragraphs of a header/footer part. -/
def HeaderFooter.allParas (hf : HeaderFooter) : List Paragraph :=
  hf.paragraphs ++ hf.tables.flatMap Table.allParas

/-- Every paragraph `replace_placeholders` visits: body paragraphs,
body-table cell paragraphs, and per-section header and footer
paragraphs and header/footer-table cell paragraphs. -/
def DocTree.allParas (d : DocTree) : List Paragraph :=
  blocksParas d.body ++ (blocksTables d.body).flatMap Table.allParas
    ++ d.sections.flatMap fun s => s.header.allParas ++ s.footer.allParas

/-- One step of the placeholder loop in `replace_in_paragraph`
(`src/app.py` lines 248-255): `full_text` is the paragraph text captured
once before the loop; on a match, every run of the current paragraph has
its text cleared and one fresh run is appended carrying
`full_text.replace(placeholder, str(value or ""))`. -/
def substStep (full_text : String) (q : Paragraph) (kv : String × Option String) : Paragraph :=
  if pyContains full_text kv.1 then
    { q with runs := q.runs.map (fun r => { r with text := "" })
        ++ [{ text := pyReplace full_text kv.1 (strOrEmpty kv.2) }] }
  else q

/-- `replace_in_paragraph` (`src/app.py` lines 245-256); the `modified`
flag the Python helper returns is never used by its caller and is not
modelled. -/
def replace_in_paragraph (repl : List (String × Option String)) (p : Paragraph) : Paragraph :=
  repl.foldl (substStep p.text) p

def substTable (repl : List (String × Option String)) (t : Table) : Table :=
  { t with rows := t.rows.map fun r =>
      { r with cells := r.cells.map fun c =>
          { c with paragraphs := c.paragraphs.map (replace_in_paragraph repl) } } }

def substBlock (repl : List (String × Option String)) : Block → Block
  | .para p => .para (replace_in_paragraph repl p)
  | .table t => .table (substTable repl t)

def substHF (repl : List (String × Option String)) (hf : HeaderFooter) : HeaderFooter :=
  { paragraphs := hf.paragraphs.map (replace_in_paragraph repl),
    tables := hf.tables.map (substTable repl) }

/-- `replace_placeholders` (`src/app.py` lines 243-278): runs
`replace_in_paragraph` on every top-level body paragraph, every cell
paragraph of every top-level table, and, per section, every header and
footer paragraph and header/footer table-cell paragraph. -/
def replace_placeholders (repl : List (String × Option String)) (doc : DocTree) : DocTree :=
  { body := doc.body.map (substBlock repl),
    sections := doc.sections.map fun s =>
      { header := substHF repl s.header, footer := substHF repl s.footer } }

/-! ## Event record and file-system model -/

/-- One feedback entry as parsed from the `feedback_data` JSON column:
a dict whose keys may be absent (`fb.get(key, "")` defaults to `""`). -/
structure Feedback where
  name : Option String := none
  rating : Option String := none
  comment : Option String := none
  deriving DecidableEq, Repr

/-- The event row consumed by `generate_report`, with the JSON columns
(`event_photos`, `feedback_data`, `selected_pos`) already parsed by the
caller's `json.loads` (parse failures yield the empty list, as in the
route code).  `title` is a required form field, the other scalar columns
are nullable TEXT. -/
structure EventRecord where
  title : String
  date : Option String := none
  venue : Option String := none
  department : Option String := none
  description : Option String := none
  academic_year : Option String := none
  resource_person : Option String := none
  resource_designation : Option String := none
  event_coordinator : Option String := none
  event_time : Option String := none
  event_type : Option String := none
  outcome_1 : Option String := none
  outcome_2 : Option String := none
  outcome_3 : Option String := none
  permission_letter : Option String := none
  invitation_letter : Option String := none
  notice_letter : Option String := none
  appreciation_letter : Option String := none
  attendance_photo : Option String := none
  event_photos : List String := []
  feedback_data : List Feedback := []
  pso1_selected : Bool := false
  pso2_selected : Bool := false
  selected_pos : List String := []
  deriving DecidableEq, Repr

/-- EMU per inch, python-docx `Inches(1)`. -/
def emuPerInch : Nat := 914400

/-- EMU for `Pt(n)`. -/
def ptEmu (n : Nat) : Nat := n * 12700

/-- The basename of a path (the part after the last `/`). -/
def basenameChars (s : List Char) : List Char :=
  (s.reverse.takeWhile (fun c => c ≠ '/')).reverse

/-- The extension part of `os.path.splitext` on a basename: the suffix
from the last dot, where the leading dots of the basename never start an
extension (so `".gif"` has no extension, `"a.tar.gz"` has `".gz"`). -/
def splitextExtChars (b : List Char) : List Char :=
  let lead := (b.takeWhile (fun c => c = '.')).length
  let rest := b.drop lead
  let revTail := rest.reverse.takeWhile (fun c => c ≠ '.')
  if revTail.length = rest.length then [] else '.' :: revTail.reverse

/-- Python `os.path.splitext(path)[1].lower()`. -/
def extLower (path : String) : String :=
  ⟨(splitextExtChars (basenameChars path.data)).map Char.toLower⟩

/-! ## First-marker traversals

Each structural inserter walks paragraphs in a fixed order and rewrites
the first paragraph some test accepts, leaving everything else intact.
`replaceFirstParaBlocks` is that walk over the top-level body blocks
(python-docx `doc.paragraphs`: paragraph blocks only, in order), where
the rewrite may expand the paragraph into several blocks. -/

def replaceFirstParaBlocks (f : Paragraph → Option (List Block)) :
    List Block → Option (List Block)
  | [] => none
  | .para p :: rest =>
    match f p with
    | some bs => some (bs ++ rest)
    | none => (replaceFirstParaBlocks f rest).map (.para p :: ·)
  | .table t :: rest => (replaceFirstParaBlocks f rest).map (.table t :: ·)

/-- Rewrite the first accepted paragraph of a paragraph list. -/
def parasFirst (f : Paragraph → Option Paragraph) : List Paragraph → Option (List Paragraph)
  | [] => none
  | p :: rest =>
    match f p with
    | some q => some (q :: rest)
    | none => (parasFirst f rest).map (p :: ·)

def cellsFirst (f : Paragraph → Option Paragraph) : List Cell → Option (List Cell)
  | [] => none
  | c :: rest =>
    match parasFirst f c.paragraphs with
    | some ps => some ({ c with paragraphs := ps } :: rest)
    | none => (cellsFirst f rest).map (c :: ·)

def rowsFirst (f : Paragraph → Option Paragraph) : List TableRow → Option (List TableRow)
  | [] => none
  | r :: rest =>
    match cellsFirst f r.cells with
    | some cs => some ({ r with cells := cs } :: rest)
    | none => (rowsFirst f rest).map (r :: ·)

def tableFirst (f : Paragraph → Option Paragraph) (t : Table) : Option Table :=
  (rowsFirst f t.rows).map fun rs => { t with rows := rs }

/-- Second pass of `insert_full_page_image`: scan the top-level tables
(in block order), into rows, cells and cell paragraphs. -/
def tablesFirst (f : Paragraph → Option Paragraph) : List Block → Option (List Block)
  | [] => none
  | .para p :: rest => (tablesFirst f rest).map (.para p :: ·)
  | .table t :: rest =>
    match tableFirst f t with
    | some t2 => some (.table t2 :: rest)
    | none => (tablesFirst f rest).map (.table t :: ·)

def tableListFirst (f : Paragraph → Option Paragraph) : List Table → Option (List Table)
  | [] => none
  | t :: rest =>
    match tableFirst f t with
    | some t2 => some (t2 :: rest)
    | none => (tableListFirst f rest).map (t :: ·)

/-- Per-section pass of `insert_full_page_image`: header paragraphs,
then header tables; footers are never searched. -/
def headerFirst (f : Paragraph → Option Paragraph) (hf : HeaderFooter) : Option HeaderFooter :=
  match parasFirst f hf.paragraphs with
  | some ps => some { hf with paragraphs := ps }
  | none => (tableListFirst f hf.tables).map fun ts => { hf with tables := ts }

def sectionsFirst (f : Paragraph → Option Paragraph) : List Section → Option (List Section)
  | [] => none
  | s :: rest =>
    match headerFirst f s.header with
    | some h => some ({ s with header := h } :: rest)
    | none => (sectionsFirst f rest).map (s :: ·)

/-! ## Structural inserters -/

/-- `run.text = ""` applied to every run of a paragraph. -/
def clearRunTexts (rs : List Run) : List Run := rs.map fun r => { r with text := "" }

/-- The ordered field list of `insert_event_details_paragraph`
(`src/app.py` lines 289-300). -/
def detailFields (e : EventRecord) : List (String × Option String) :=
  [("Academic Year", e.academic_year),
   ("Name of Event", some e.title),
   ("Resource Person", e.resource_person),
   ("Event Type", e.event_type),
   ("Date", e.date),
   ("Time", e.event_time),
   ("Venue", e.venue),
   ("Department", e.department),
   ("Designation", e.resource_designation),
   ("Event Coordinator", e.event_coordinator)]

/-- One detail paragraph: left aligned, tight spacing, runs
`label` (bold, Times New Roman 12pt) + tab + `value or ""` (normal). -/
def detailPara (lv : String × Option String) : Paragraph :=
  { runs := [{ text := lv.1, bold := some true,
               fontName := some "Times New Roman", fontSize := some (ptEmu 12) },
             { text := "\t" },
             { text := strOrEmpty lv.2, bold := some false,
               fontName := some "Times New Roman", fontSize := some (ptEmu 12) }],
    alignment := some .left,
    spaceBefore := some (ptEmu 0),
    spaceAfter := some (ptEmu 2),
    lineSpacing := some 1 }

/-- `insert_event_details_paragraph` (`src/app.py` lines 283-321): scans
only the top-level body paragraphs for the marker; on the first hit it
sets the marker paragraph's text to `""` and, inserting before it in
reversed order, leaves the ten detail paragraphs in field order just
before the cleared paragraph.  Absent marker: silent no-op. -/
def insert_event_details_paragraph (marker : String) (e : EventRecord) (doc : DocTree) : DocTree :=
  match replaceFirstParaBlocks (fun p =>
      if pyContains p.text marker then
        some ((detailFields e).map (fun lv => Block.para (detailPara lv))
          ++ [Block.para { p with runs := [{ text := "" }] }])
      else none) doc.body with
  | some b => { doc with body := b }
  | none => doc

/-- The paragraph produced by `insert_full_page_image.process_paragraph`
on a marker hit: run texts cleared, centered, one new run carrying the
picture at `Inches(6)` width, keep-together set. -/
def imgParagraph (path : String) (p : Paragraph) : Paragraph :=
  { p with runs := clearRunTexts p.runs ++ [{ pics := [(path, 6 * emuPerInch)] }],
           alignment := some .center,
           keepTogether := some true }

def imgProcess (marker path : String) (p : Paragraph) : Option Paragraph :=
  if pyContains p.text marker then some (imgParagraph path p) else none

/-- `insert_full_page_image` (`src/app.py` lines 324-364): no-op when
the path is falsy or the file does not exist (`fs` is the
`os.path.exists` oracle); otherwise rewrites the first marker paragraph
found scanning body paragraphs, then top-level table cells, then each
section's header paragraphs and header tables (footers never searched). -/
def insert_full_page_image (fs : String → Bool) (marker : String) (path? : Option String)
    (doc : DocTree) : DocTree :=
  match path? with
  | none => doc
  | some path =>
    if path == "" || !fs path then doc
    else
      match replaceFirstParaBlocks
          (fun p => (imgProcess marker path p).map fun q => [Block.para q]) doc.body with
      | some b => { doc with body := b }
      | none =>
        match tablesFirst (imgProcess marker path) doc.body with
        | some b => { doc with body := b }
        | none =>
          match sectionsFirst (imgProcess marker path) doc.sections with
          | some ss => { doc with sections := ss }
          | none => doc

/-- The gallery paragraph made by `insert_event_photos` on the marker
hit: text reset to the marker-stripped text (one fresh run), centered,
then for each photo that exists on disk a picture run at `Inches(5)`
followed by a line-break run; missing photos are skipped. -/
def galleryParagraph (fs : String → Bool) (marker : String) (photos : List String)
    (p : Paragraph) : Paragraph :=
  { p with
    runs := [{ text := pyReplace p.text marker "" }]
      ++ (photos.filter fs).flatMap (fun img =>
          [{ pics := [(img, 5 * emuPerInch)] }, { brks := [Brk.line] }]),
    alignment := some .center }

/-- `insert_event_photos` (`src/app.py` lines 370-385): no-op on an
empty photo list; otherwise rewrites the first top-level body paragraph
containing the marker. -/
def insert_event_photos (fs : String → Bool) (marker : String) (photos : List String)
    (doc : DocTree) : DocTree :=
  if photos.isEmpty then doc
  else
    match replaceFirstParaBlocks (fun p =>
        if pyContains p.text marker then some [Block.para (galleryParagraph fs marker photos p)]
        else none) doc.body with
    | some b => { doc with body := b }
    | none => doc

/-- The image-extension whitelist of `insert_attendance`
(`src/app.py` line 416) — note `.gif` is absent. -/
def attendanceImageExts : List String := [".jpg", ".jpeg", ".png"]

/-- The literal fallback text of `insert_attendance` (line 420). -/
def attendanceFallbackText : String := "\nAttendance attached as scanned document"

/-- The paragraph made by `insert_attendance` on the marker hit:
cleared, then a page-break run, a bold title run `"Attendance\n"` at
`Inches(0.25)` font size, centering and keep-with-next, and finally
either a picture run at `Inches(8)` (image extension) or the literal
fallback text run (anything else). -/
def attendancePara (path : String) (p : Paragraph) : Paragraph :=
  { p with
    runs := [{ brks := [Brk.page] },
             { text := "Attendance\n", bold := some true, fontSize := some (emuPerInch / 4) },
             if extLower path ∈ attendanceImageExts then
               { pics := [(path, 8 * emuPerInch)] }
             else
               { text := attendanceFallbackText }],
    alignment := some .center,
    keepWithNext := some true }

/-- `insert_attendance` (`src/app.py` lines 392-422): no-op when the
path is falsy or the file does not exist; otherwise rewrites the first
top-level body paragraph containing the marker. -/
def insert_attendance (fs : String → Bool) (marker : String) (path? : Option String)
    (doc : DocTree) : DocTree :=
  match path? with
  | none => doc
  | some path =>
    if path == "" || !fs path then doc
    else
      match replaceFirstParaBlocks (fun p =>
          if pyContains p.text marker then some [Block.para (attendancePara path p)]
          else none) doc.body with
      | some b => { doc with body := b }
      | none => doc

/-! ## Feedback table -/

/-- python-docx `cell.text = t`: the cell becomes a single paragraph
holding a single run with that text. -/
def cellOfText (t : String) : Cell := { paragraphs := [{ runs := [{ text := t }] }] }

/-- `set_cell_font` (`src/app.py` lines 427-432). -/
def set_cell_font (bold : Bool) (c : Cell) : Cell :=
  { paragraphs := c.paragraphs.map fun p =>
      { p with runs := p.runs.map fun r =>
          { r with fontName := some "Times New Roman",
                   fontSize := some (ptEmu 12),
                   bold := some bold } } }

def fbHeaderRow : TableRow :=
  { cells := ["Name", "Rating", "Comment"].map fun t => set_cell_font true (cellOfText t) }

def fbDataRow (f : Feedback) : TableRow :=
  { cells := [strOrEmpty f.name, strOrEmpty f.rating, strOrEmpty f.comment].map fun t =>
      set_cell_font false (cellOfText t) }

/-- The table `insert_feedback_table` constructs: header row plus one
row per (already capped) entry.  `grid` tells whether the template has
the "Table Grid" style — the `try/except KeyError` in the source leaves
the table unstyled when it does not. -/
def buildFeedbackTable (grid : Bool) (fb : List Feedback) : Table :=
  { rows := fbHeaderRow :: fb.map fbDataRow,
    style := if grid then some "Table Grid" else none }

/-- `insert_feedback_table` (`src/app.py` lines 435-466): no-op on an
empty list; otherwise caps the list at 10 entries, clears the first
top-level body paragraph containing the marker (`p.clear()`), and —
because `doc.add_table` appends to the document body — places the
constructed table after the last existing body block, not at the marker
position. -/
def insert_feedback_table (grid : Bool) (marker : String) (feedback : List Feedback)
    (doc : DocTree) : DocTree :=
  if feedback.isEmpty then doc
  else
    let fb := feedback.take 10
    match replaceFirstParaBlocks (fun p =>
        if pyContains p.text marker then some [Block.para { p with runs := [] }]
        else none) doc.body with
    | some b => { doc with body := b ++ [Block.table (buildFeedbackTable grid fb)] }
    | none => doc

/-! ## Upload validator extension gate (`_save_file`) -/

/-- `_save_file`'s image-extension set (`src/app.py` line 196) — note it
does accept `.gif`, unlike `insert_attendance`. -/
def saveFileImageExts : List String := [".jpg", ".jpeg", ".png", ".gif"]

/-- The extension gate of `_save_file` (`src/app.py` lines 195-199):
accepts exactly the image extensions, plus `.pdf` when `allow_pdf`. -/
def save_file_accepts_ext (filename : String) (allow_pdf : Bool) : Bool :=
  extLower filename ∈ saveFileImageExts || (allow_pdf && extLower filename == ".pdf")

/-! ## `generate_report` pipeline -/

def PSO1_TEXT : String :=
  "PSO1: An ability to apply the theoretical concepts and practical knowledge of " ++
  "Information Technology in the analysis, design, development, and management of " ++
  "information processing systems and applications in the interdisciplinary domain " ++
  "to understand professional, business processes, ethical, legal, security, and " ++
  "social issues and responsibilities."

def PSO2_TEXT : String :=
  "PSO2: An ability to analyze a problem and identify and define the computing " ++
  "infrastructure and operations requirements appropriate to its solution. IT " ++
  "graduates should be able to work on large-scale computing systems."

def psoSectionText (e : EventRecord) : String :=
  String.intercalate "\n\n"
    ((if e.pso1_selected then [PSO1_TEXT] else []) ++
     (if e.pso2_selected then [PSO2_TEXT] else []))

def poSectionText (e : EventRecord) : String :=
  String.intercalate "\n" (e.selected_pos.map fun po => "• " ++ po)

/-- The replacement mapping `generate_report` hands to
`replace_placeholders` (`src/app.py` lines 884-905), in source order
(Python dicts iterate in insertion order). -/
def reportReplacements (e : EventRecord) : List (String × Option String) :=
  [("\x7b\x7bacademic_year\x7d\x7d", e.academic_year),
   ("\x7b\x7bdate\x7d\x7d", e.date),
   ("\x7b\x7bevent_name\x7d\x7d", some e.title),
   ("\x7b\x7bevent_type\x7d\x7d", e.event_type),
   ("\x7b\x7bevent_date\x7d\x7d", e.date),
   ("\x7b\x7bevent_time\x7d\x7d", e.event_time),
   ("\x7b\x7bvenue\x7d\x7d", e.venue),
   ("\x7b\x7bdepartment\x7d\x7d", e.department),
   ("\x7b\x7bresource_person\x7d\x7d", e.resource_person),
   ("\x7b\x7bresource_designation\x7d\x7d", e.resource_designation),
   ("\x7b\x7bevent_coordinator\x7d\x7d", e.event_coordinator),
   ("\x7b\x7bevent coordinator\x7d\x7d", e.event_coordinator),
   ("\x7b\x7bevent_description\x7d\x7d", e.description),
   ("\x7b\x7bevent description\x7d\x7d", e.description),
   ("\x7b\x7boutcome_1\x7d\x7d", e.outcome_1),
   ("\x7b\x7boutcome_2\x7d\x7d", e.outcome_2),
   ("\x7b\x7boutcome_3\x7d\x7d", e.outcome_3),
   ("\x7b\x7bPSO_SECTION\x7d\x7d", some (psoSectionText e)),
   ("\x7b\x7bPO_SECTION\x7d\x7d", some (poSectionText e))]

/-- The fixed mutation pipeline of `generate_report`
(`src/app.py` lines 884-920), in source order. -/
def assemble (fs : String → Bool) (grid : Bool) (e : EventRecord) (doc : DocTree) : DocTree :=
  let doc := replace_placeholders (reportReplacements e) doc
  let doc := insert_event_details_paragraph "<<EVENT_DETAILS>>" e doc
  let doc := insert_full_page_image fs "<<IMAGE_PERMISSION>>" e.permission_letter doc
  let doc := insert_full_page_image fs "<<IMAGE_INVITATION>>" e.invitation_letter doc
  let doc := insert_full_page_image fs "<<IMAGE_NOTICE>>" e.notice_letter doc
  let doc := insert_full_page_image fs "<<IMAGE_APPRECIATION>>" e.appreciation_letter doc
  let doc := insert_event_photos fs "<<EVENT_PHOTOS>>" e.event_photos doc
  let doc := insert_attendance fs "<<ATTENDANCE_FILE>>" e.attendance_photo doc
  insert_feedback_table grid "<<FEEDBACK_TABLE>>" e.feedback_data doc

/-- Observable side effects of one `generate_report` call, in the order
the code performs them. -/
inductive Effect
  | savedFile (path : String)
  | insertedReport (event_id : Nat) (file_path : String) (status : String)
  deriving DecidableEq, Repr

def Effect.isInsertedReport : Effect → Bool
  | .insertedReport _ _ _ => true
  | _ => false

def GENERATED_FOLDER : String := "generated_reports"

/-- Output path policy (`src/app.py` lines 922-923):
`title.replace(" ", "_") + ".docx"` under the generated folder. -/
def reportPath (title : String) : String :=
  GENERATED_FOLDER ++ "/" ++ (pyReplace title " " "_" ++ ".docx")

/-- `generate_report` (`src/app.py` lines 846-936), after the excluded
CRUD glue has fetched and JSON-decoded the event row: `Document(path)`
raising (missing/corrupt template) is the `none` case and aborts before
any mutation, write or DB insert; otherwise the pipeline runs, the
document is saved, and one `reports` row
`(event_id, file_path, status="submitted")` is inserted — in that
order. -/
def generate_report (template : Option DocTree) (fs : String → Bool) (grid : Bool)
    (event_id : Nat) (e : EventRecord) : Except Unit (DocTree × List Effect) :=
  match template with
  | none => Except.error ()
  | some doc0 =>
    let doc := assemble fs grid e doc0
    let path := reportPath e.title
    Except.ok (doc, [Effect.savedFile path, Effect.insertedReport event_id path "submitted"])

/-! ## Observables -/

/-- python-docx `cell.text`: newline-joined paragraph texts. -/
def Cell.textAll (c : Cell) : String :=
  String.intercalate "\n" (c.paragraphs.map Paragraph.text)

/-- The picture paths embedded in a paragraph, in run order. -/
def Paragraph.picPaths (p : Paragraph) : List String :=
  p.runs.flatMap fun r => r.pics.map Prod.fst

/-! ## Helper lemmas -/

theorem mapSelf {α : Type _} (f : α → α) :
    ∀ (l : List α), (∀ x ∈ l, f x = x) → l.map f = l
  | [], _ => rfl
  | x :: xs, h => by
    simp only [List.map_cons]
    rw [h x (by simp), mapSelf f xs (fun y hy => h y (by simp [hy]))]

theorem foldlId {α β : Type _} (f : α → β → α) (a : α) :
    ∀ (l : List β), (∀ b ∈ l, f a b = a) → l.foldl f a = a
  | [], _ => rfl
  | b :: bs, h => by
    simp only [List.foldl_cons]
    rw [h b (by simp)]
    exact foldlId f a bs fun x hx => h x (by simp [hx])

/-- A paragraph whose text contains no key of the mapping is left alone
by `replace_in_paragraph`. -/
theorem replace_in_paragraph_clean (repl : List (String × Option String)) (p : Paragraph)
    (h : ∀ kv ∈ repl, pyContains p.text kv.1 = false) :
    replace_in_paragraph repl p = p := by
  unfold replace_in_paragraph
  exact foldlId _ _ _ fun kv hkv => by simp [substStep, h kv hkv]

theorem substTable_clean (repl : List (String × Option String)) (t : Table)
    (h : ∀ p ∈ t.allParas, ∀ kv ∈ repl, pyContains p.text kv.1 = false) :
    substTable repl t = t := by
  obtain ⟨rows, style⟩ := t
  simp only [substTable, Table.mk.injEq, and_true]
  refine mapSelf _ _ fun r hr => ?_
  obtain ⟨cells⟩ := r
  simp only [TableRow.mk.injEq]
  refine mapSelf _ _ fun c hc => ?_
  obtain ⟨ps⟩ := c
  simp only [Cell.mk.injEq]
  refine mapSelf _ _ fun p hp => ?_
  refine replace_in_paragraph_clean repl p (h p ?_)
  simp only [Table.allParas, List.mem_flatMap]
  exact ⟨⟨cells⟩, hr, ⟨ps⟩, hc, hp⟩

theorem substHF_clean (repl : List (String × Option String)) (hf : HeaderFooter)
    (h : ∀ p ∈ hf.allParas, ∀ kv ∈ repl, pyContains p.text kv.1 = false) :
    substHF repl hf = hf := by
  obtain ⟨ps, ts⟩ := hf
  simp only [substHF, HeaderFooter.mk.injEq]
  constructor
  · refine mapSelf _ _ fun p hp => replace_in_paragraph_clean repl p (h p ?_)
    simp [HeaderFooter.allParas, hp]
  · refine mapSelf _ _ fun t ht => substTable_clean repl t fun p hp kv hkv => h p ?_ kv hkv
    simp only [HeaderFooter.allParas, List.mem_append, List.mem_flatMap]
    exact Or.inr ⟨t, ht, hp⟩

theorem mem_blocksParas_of_mem {p : Paragraph} :
    ∀ {l : List Block}, Block.para p ∈ l → p ∈ blocksParas l
  | .para q :: rest, h => by
    rcases List.mem_cons.mp h with h1 | h2
    · cases h1; simp [blocksParas]
    · simp [blocksParas, mem_blocksParas_of_mem h2]
  | .table t :: rest, h => by
    rcases List.mem_cons.mp h with h1 | h2
    · cases h1
    · simp [blocksParas, mem_blocksParas_of_mem h2]

theorem mem_blocksTables_of_mem {t : Table} :
    ∀ {l : List Block}, Block.table t ∈ l → t ∈ blocksTables l
  | .para q :: rest, h => by
    rcases List.mem_cons.mp h with h1 | h2
    · cases h1
    · simp [blocksTables, mem_blocksTables_of_mem h2]
  | .table u :: rest, h => by
    rcases List.mem_cons.mp h with h1 | h2
    · cases h1; simp [blocksTables]
    · simp [blocksTables, mem_blocksTables_of_mem h2]

theorem rfpb_none (f : Paragraph → Option (List Block)) :
    ∀ (l : List Block), (∀ q ∈ blocksParas l, f q = none) →
      replaceFirstParaBlocks f l = none
  | [], _ => rfl
  | .para p :: rest, h => by
    have hp : f p = none := h p (by simp [blocksParas])
    simp only [replaceFirstParaBlocks, hp]
    rw [rfpb_none f rest fun q hq => h q (by simp [blocksParas, hq])]
    rfl
  | .table t :: rest, h => by
    simp only [replaceFirstParaBlocks]
    rw [rfpb_none f rest fun q hq => h q (by simp [blocksParas, hq])]
    rfl

theorem rfpb_found (f : Paragraph → Option (List Block)) (p : Paragraph) (bs : List Block)
    (hp : f p = some bs) :
    ∀ (pre : List Block), (∀ q ∈ blocksParas pre, f q = none) → ∀ (post : List Block),
      replaceFirstParaBlocks f (pre ++ Block.para p :: post) = some (pre ++ (bs ++ post))
  | [], _, post => by simp [replaceFirstParaBlocks, hp]
  | .para q :: rest, h, post => by
    have hq : f q = none := h q (by simp [blocksParas])
    simp only [List.cons_append, replaceFirstParaBlocks, hq, List.append_eq]
    rw [rfpb_found f p bs hp rest (fun r hr => h r (by simp [blocksParas, hr])) post]
    rfl
  | .table t :: rest, h, post => by
    simp only [List.cons_append, replaceFirstParaBlocks, List.append_eq]
    rw [rfpb_found f p bs hp rest (fun r hr => h r (by simp [blocksParas, hr])) post]
    rfl

theorem parasFirst_none (f : Paragraph → Option Paragraph) :
    ∀ (l : List Paragraph), (∀ q ∈ l, f q = none) → parasFirst f l = none
  | [], _ => rfl
  | p :: rest, h => by
    have hp : f p = none := h p (by simp)
    simp only [parasFirst, hp]
    rw [parasFirst_none f rest fun q hq => h q (by simp [hq])]
    rfl

theorem cellsFirst_none (f : Paragraph → Option Paragraph) :
    ∀ (l : List Cell), (∀ c ∈ l, ∀ q ∈ c.paragraphs, f q = none) → cellsFirst f l = none
  | [], _ => rfl
  | c :: rest, h => by
    simp only [cellsFirst, parasFirst_none f c.paragraphs (h c (by simp))]
    rw [cellsFirst_none f rest fun d hd => h d (by simp [hd])]
    rfl

theorem rowsFirst_none (f : Paragraph → Option Paragraph) :
    ∀ (l : List TableRow), (∀ r ∈ l, ∀ c ∈ r.cells, ∀ q ∈ c.paragraphs, f q = none) →
      rowsFirst f l = none
  | [], _ => rfl
  | r :: rest, h => by
    simp only [rowsFirst, cellsFirst_none f r.cells (h r (by simp))]
    rw [rowsFirst_none f rest fun s hs => h s (by simp [hs])]
    rfl

theorem tableFirst_none (f : Paragraph → Option Paragraph) (t : Table)
    (h : ∀ q ∈ t.allParas, f q = none) : tableFirst f t = none := by
  have : rowsFirst f t.rows = none := by
    refine rowsFirst_none f t.rows fun r hr c hc q hq => h q ?_
    simp only [Table.allParas, List.mem_flatMap]
    exact ⟨r, hr, c, hc, hq⟩
  simp [tableFirst, this]

theorem tablesFirst_none (f : Paragraph → Option Paragraph) :
    ∀ (l : List Block), (∀ t ∈ blocksTables l, ∀ q ∈ t.allParas, f q = none) →
      tablesFirst f l = none
  | [], _ => rfl
  | .para p :: rest, h => by
    simp only [tablesFirst]
    rw [tablesFirst_none f rest fun t ht => h t (by simp [blocksTables, ht])]
    rfl
  | .table t :: rest, h => by
    simp only [tablesFirst, tableFirst_none f t (h t (by simp [blocksTables]))]
    rw [tablesFirst_none f rest fun u hu => h u (by simp [blocksTables, hu])]
    rfl

theorem tableListFirst_none (f : Paragraph → Option Paragraph) :
    ∀ (l : List Table), (∀ t ∈ l, ∀ q ∈ t.allParas, f q = none) → tableListFirst f l = none
  | [], _ => rfl
  | t :: rest, h => by
    simp only [tableListFirst, tableFirst_none f t (h t (by simp))]
    rw [tableListFirst_none f rest fun u hu => h u (by simp [hu])]
    rfl

theorem headerFirst_none (f : Paragraph → Option Paragraph) (hf : HeaderFooter)
    (h : ∀ q ∈ hf.allParas, f q = none) : headerFirst f hf = none := by
  have h1 : parasFirst f hf.paragraphs = none :=
    parasFirst_none f hf.paragraphs fun q hq => h q (by simp [HeaderFooter.allParas, hq])
  have h2 : tableListFirst f hf.tables = none := by
    refine tableListFirst_none f hf.tables fun t ht q hq => h q ?_
    simp only [HeaderFooter.allParas, List.mem_append, List.mem_flatMap]
    exact Or.inr ⟨t, ht, hq⟩
  simp [headerFirst, h1, h2]

theorem sectionsFirst_none (f : Paragraph → Option Paragraph) :
    ∀ (l : List Section), (∀ s ∈ l, ∀ q ∈ s.header.allParas, f q = none) →
      sectionsFirst f l = none
  | [], _ => rfl
  | s :: rest, h => by
    simp only [sectionsFirst, headerFirst_none f s.header (h s (by simp))]
    rw [sectionsFirst_none f rest fun u hu => h u (by simp [hu])]
    rfl

theorem joinSingle (s : String) : String.join [s] = s := by
  cases s
  rfl

theorem intercalateSingle (sep s : String) : String.intercalate sep [s] = s := rfl

theorem textAll_set_cell_font (b : Bool) (t : String) :
    Cell.textAll (set_cell_font b (cellOfText t)) = t := by
  simp [Cell.textAll, set_cell_font, cellOfText, Paragraph.text, intercalateSingle, joinSingle]

theorem fbDataRow_cellTexts (f : Feedback) :
    (fbDataRow f).cells.map Cell.textAll
      = [strOrEmpty f.name, strOrEmpty f.rating, strOrEmpty f.comment] := by
  simp [fbDataRow, textAll_set_cell_font]

theorem fbHeaderRow_cellTexts :
    fbHeaderRow.cells.map Cell.textAll = ["Name", "Rating", "Comment"] := by
  simp [fbHeaderRow, textAll_set_cell_font]

theorem galleryPicsAux (w : Nat) :
    ∀ (l : List String),
      (l.flatMap fun img => [({ pics := [(img, w)] } : Run), { brks := [Brk.line] }]).flatMap
          (fun r => r.pics.map Prod.fst) = l
  | [] => rfl
  | x :: xs => by
    simp only [List.flatMap_cons, List.flatMap_append]
    rw [galleryPicsAux w xs]
    rfl

theorem galleryParagraph_picPaths (fs : String → Bool) (marker : String) (photos : List String)
    (p : Paragraph) :
    (galleryParagraph fs marker photos p).picPaths = photos.filter fs := by
  simp only [galleryParagraph, Paragraph.picPaths, List.singleton_append, List.flatMap_cons,
    List.map_nil, List.nil_append]
  exact galleryPicsAux (5 * emuPerInch) (photos.filter fs)

/-! ## Claims -/

/-- Demo mapping with two keys, as `generate_report` builds for an event
with venue `"Hall"` and date `"May 1"`. -/
def substDemoRepl : List (String × Option String) :=
  [("\x7b\x7bvenue\x7d\x7d", some "Hall"), ("\x7b\x7bdate\x7d\x7d", some "May 1")]

/-- A template paragraph whose single run holds the tokens of two
distinct keys. -/
def substDemoPara : Paragraph :=
  { runs := [{ text := "Venue: \x7b\x7bvenue\x7d\x7d on \x7b\x7bdate\x7d\x7d" }] }

def substDemoDoc : DocTree := { body := [Block.para substDemoPara], sections := [] }

/-- **C1** (claim false; code bug): `replace_in_paragraph` captures
`full_text` once, before its loop over the keys, and every matching key
rewrites the paragraph to `full_text.replace(that key, value)` from that
stale snapshot, first clearing all runs — so the last matching key's
rewrite erases every earlier key's substitution.  On a paragraph holding
the tokens of two distinct keys, the output still contains the literal
first token and never contains the first key's value, contradicting the
claimed substitution completeness.  Here: mapping
`{{venue}} -> "Hall", {{date}} -> "May 1"` over the paragraph
`"Venue: {{venue}} on {{date}}"` yields
`"Venue: {{venue}} on May 1"`. -/
theorem C1_multi_key_substitution_leaves_token :
    ((replace_placeholders substDemoRepl substDemoDoc).allParas.map Paragraph.text
        = ["Venue: \x7b\x7bvenue\x7d\x7d on May 1"])
    ∧ (∀ s ∈ (replace_placeholders substDemoRepl substDemoDoc).allParas.map Paragraph.text,
        pyContains s "\x7b\x7bvenue\x7d\x7d" = true ∧ pyContains s "Hall" = false) := by
  constructor
  · decide
  · decide

/-- **C8 counterexample**: applying `replace_placeholders` twice does
not equal applying it once — the first application leaves the literal
`{{venue}}` token behind (the C1 bug), and the second application then
substitutes it, changing the tree again. -/
theorem C8_second_application_changes_tree :
    replace_placeholders substDemoRepl (replace_placeholders substDemoRepl substDemoDoc)
      ≠ replace_placeholders substDemoRepl substDemoDoc := by
  decide

/-- **C8** (amended): on every tree in which no paragraph's concatenated
run text contains any mapping token, `replace_placeholders` leaves every
paragraph — body, table cells, headers and footers — unchanged; the
claimed equivalence with "twice equals once" does not hold on the code,
because a single application can leave tokens behind (see the
counterexample). -/
theorem C8_substitution_noop_on_token_free_tree (repl : List (String × Option String))
    (d : DocTree)
    (h : ∀ p ∈ d.allParas, ∀ kv ∈ repl, pyContains p.text kv.1 = false) :
    replace_placeholders repl d = d := by
  obtain ⟨body, sections⟩ := d
  have hb : ∀ p ∈ blocksParas body, ∀ kv ∈ repl, pyContains p.text kv.1 = false :=
    fun p hp => h p (by simp [DocTree.allParas, hp])
  have ht : ∀ t ∈ blocksTables body, ∀ p ∈ t.allParas, ∀ kv ∈ repl,
      pyContains p.text kv.1 = false := by
    intro t htm p hp
    refine h p ?_
    simp only [DocTree.allParas, List.mem_append, List.mem_flatMap]
    exact Or.inl (Or.inr ⟨t, htm, hp⟩)
  have hs : ∀ s ∈ sections, ∀ p ∈ s.header.allParas ++ s.footer.allParas, ∀ kv ∈ repl,
      pyContains p.text kv.1 = false := by
    intro s hsm p hp
    refine h p ?_
    simp only [DocTree.allParas, List.mem_append, List.mem_flatMap]
    exact Or.inr ⟨s, hsm, List.mem_append.mp hp⟩
  simp only [replace_placeholders, DocTree.mk.injEq]
  constructor
  · refine mapSelf _ _ fun b hbm => ?_
    cases b with
    | para p =>
      simp only [substBlock]
      rw [replace_in_paragraph_clean repl p (hb p (mem_blocksParas_of_mem hbm))]
    | table t =>
      simp only [substBlock]
      rw [substTable_clean repl t (ht t (mem_blocksTables_of_mem hbm))]
  · refine mapSelf _ _ fun s hsm => ?_
    obtain ⟨hd, ft⟩ := s
    simp only [Section.mk.injEq]
    constructor
    · exact substHF_clean repl hd fun p hp => hs ⟨hd, ft⟩ hsm p (by simp [hp])
    · exact substHF_clean repl ft fun p hp => hs ⟨hd, ft⟩ hsm p (by simp [hp])

/-- A fully substituted tree: body paragraph, a body table, and one
section with header and footer text — none containing any token. -/
def cleanDemoDoc : DocTree :=
  { body := [Block.para { runs := [{ text := "Venue: Hall on May 1" }] },
             Block.table { rows := [{ cells :=
               [{ paragraphs := [{ runs := [{ text := "cell text" }] }] }] }] }],
    sections := [{ header := { paragraphs := [{ runs := [{ text := "header" }] }] },
                   footer := { paragraphs := [{ runs := [{ text := "footer" }] }] } }] }

theorem C8_substitution_noop_witness :
    replace_placeholders substDemoRepl cleanDemoDoc = cleanDemoDoc :=
  C8_substitution_noop_on_token_free_tree substDemoRepl cleanDemoDoc (by decide)

theorem mapCongr {α β : Type _} (f g : α → β) :
    ∀ (l : List α), (∀ x ∈ l, f x = g x) → l.map f = l.map g
  | [], _ => rfl
  | x :: xs, h => by
    simp only [List.map_cons]
    rw [h x (by simp), mapCongr f g xs fun y hy => h y (by simp [hy])]

def Block.isTable : Block → Bool
  | .table _ => true
  | .para _ => false

/-- Where `insert_feedback_table` puts things when the marker sits in a
body paragraph and the list is non-empty: the first marker paragraph is
cleared in place, and the table of the first 10 entries is appended at
the very end of the body. -/
theorem insert_feedback_table_found (grid : Bool) (marker : String) (fb : List Feedback)
    (pre post : List Block) (p : Paragraph) (sections : List Section)
    (hfb : fb ≠ [])
    (hpre : ∀ q ∈ blocksParas pre, pyContains q.text marker = false)
    (hp : pyContains p.text marker = true) :
    insert_feedback_table grid marker fb
        { body := pre ++ Block.para p :: post, sections := sections }
      = { body := (pre ++ Block.para { p with runs := [] } :: post)
            ++ [Block.table (buildFeedbackTable grid (fb.take 10))],
          sections := sections } := by
  have hne : fb.isEmpty = false := by
    cases fb with
    | nil => exact absurd rfl hfb
    | cons a as => rfl
  simp only [insert_feedback_table, hne, Bool.false_eq_true, if_false]
  rw [rfpb_found _ p [Block.para { p with runs := [] }] (by simp [hp]) pre
    (fun q hq => by simp [hpre q hq]) post]
  simp

/-- When no top-level body paragraph holds the marker,
`insert_feedback_table` is the identity (even if the list is non-empty
and the marker sits in a table cell or header). -/
theorem insert_feedback_table_noop (grid : Bool) (marker : String) (fb : List Feedback)
    (d : DocTree) (hbody : ∀ q ∈ blocksParas d.body, pyContains q.text marker = false) :
    insert_feedback_table grid marker fb d = d := by
  by_cases hfb : fb.isEmpty
  · simp [insert_feedback_table, hfb]
  · simp only [insert_feedback_table, hfb, Bool.false_eq_true, if_false]
    rw [rfpb_none _ d.body fun q hq => by simp [hbody q hq]]

def fbDemoEntry : Feedback := { name := some "A", rating := some "5", comment := some "Great" }

def fbMarkerPara : Paragraph := { runs := [{ text := "<<FEEDBACK_TABLE>>" }] }

def fbAfterPara : Paragraph := { runs := [{ text := "Conclusion" }] }

def fbDemoDoc : DocTree :=
  { body := [Block.para fbMarkerPara, Block.para fbAfterPara], sections := [] }

/-- **C2 counterexample**: with the marker in the first body paragraph
and a following paragraph after it, the built table does not replace the
marker paragraph — `doc.add_table` appends it after the last body block,
so the output is `[cleared marker, "Conclusion", table]`, and no table
occupies either of the first two positions.  This falsifies "inserts the
constructed table ... at the position of the marker paragraph rather
than elsewhere". -/
theorem C2_table_appended_at_end_not_at_marker :
    (insert_feedback_table true "<<FEEDBACK_TABLE>>" [fbDemoEntry] fbDemoDoc).body
      = [Block.para { fbMarkerPara with runs := [] }, Block.para fbAfterPara,
         Block.table (buildFeedbackTable true [fbDemoEntry])]
    ∧ ((insert_feedback_table true "<<FEEDBACK_TABLE>>" [fbDemoEntry] fbDemoDoc).body.take 2).all
        (fun b => ! b.isTable) = true := by
  constructor
  · decide
  · decide

/-- **C2** (amended): for every non-empty feedback list and a tree whose
marker sits in a body paragraph, `insert_feedback_table` clears the
marker paragraph in place but appends the constructed table — bold
header row `Name/Rating/Comment` plus data rows — at the end of the
document body, not at the marker paragraph's position. -/
theorem C2_feedback_clear_in_place_table_at_end (grid : Bool) (marker : String)
    (fb : List Feedback) (pre post : List Block) (p : Paragraph) (sections : List Section)
    (hfb : fb ≠ [])
    (hpre : ∀ q ∈ blocksParas pre, pyContains q.text marker = false)
    (hp : pyContains p.text marker = true) :
    insert_feedback_table grid marker fb
        { body := pre ++ Block.para p :: post, sections := sections }
      = { body := (pre ++ Block.para { p with runs := [] } :: post)
            ++ [Block.table (buildFeedbackTable grid (fb.take 10))],
          sections := sections }
    ∧ (buildFeedbackTable grid (fb.take 10)).rows.head? = some fbHeaderRow
    ∧ fbHeaderRow.cells.map Cell.textAll = ["Name", "Rating", "Comment"]
    ∧ (∀ c ∈ fbHeaderRow.cells, ∀ q ∈ c.paragraphs, ∀ r ∈ q.runs, r.bold = some true) :=
  ⟨insert_feedback_table_found grid marker fb pre post p sections hfb hpre hp,
   rfl, fbHeaderRow_cellTexts, by decide⟩

theorem C2_feedback_clear_in_place_table_at_end_witness :
    (insert_feedback_table true "<<FEEDBACK_TABLE>>" [fbDemoEntry]
        { body := [Block.para fbMarkerPara, Block.para fbAfterPara], sections := [] }
      = { body := [Block.para { fbMarkerPara with runs := [] }, Block.para fbAfterPara,
                   Block.table (buildFeedbackTable true [fbDemoEntry])], sections := [] })
    ∧ (buildFeedbackTable true [fbDemoEntry]).rows.head? = some fbHeaderRow
    ∧ fbHeaderRow.cells.map Cell.textAll = ["Name", "Rating", "Comment"]
    ∧ (∀ c ∈ fbHeaderRow.cells, ∀ q ∈ c.paragraphs, ∀ r ∈ q.runs, r.bold = some true) :=
  C2_feedback_clear_in_place_table_at_end true "<<FEEDBACK_TABLE>>" [fbDemoEntry]
    [] [Block.para fbAfterPara] fbMarkerPara [] (by decide) (by decide) (by decide)

/-- **C4**: empty feedback is a no-op; a non-empty feedback list of
`n` entries yields a table of `1 + min n 10` rows — bold header plus the
first ten entries in input order — each data cell holding the entry's
field value, defaulted to `""` when the field is missing. -/
theorem C4_feedback_cap_order_and_cells (grid : Bool) (marker : String) (fb : List Feedback)
    (pre post : List Block) (p : Paragraph) (sections : List Section)
    (hfb : fb ≠ [])
    (hpre : ∀ q ∈ blocksParas pre, pyContains q.text marker = false)
    (hp : pyContains p.text marker = true) :
    (insert_feedback_table grid marker []
        { body := pre ++ Block.para p :: post, sections := sections }
      = { body := pre ++ Block.para p :: post, sections := sections })
    ∧ insert_feedback_table grid marker fb
          { body := pre ++ Block.para p :: post, sections := sections }
        = { body := (pre ++ Block.para { p with runs := [] } :: post)
              ++ [Block.table (buildFeedbackTable grid (fb.take 10))],
            sections := sections }
    ∧ (buildFeedbackTable grid (fb.take 10)).rows.length = 1 + min fb.length 10
    ∧ (buildFeedbackTable grid (fb.take 10)).rows.map (fun r => r.cells.map Cell.textAll)
        = ["Name", "Rating", "Comment"]
          :: (fb.take 10).map fun f =>
              [strOrEmpty f.name, strOrEmpty f.rating, strOrEmpty f.comment] := by
  refine ⟨by simp [insert_feedback_table],
    insert_feedback_table_found grid marker fb pre post p sections hfb hpre hp, ?_, ?_⟩
  · simp only [buildFeedbackTable, List.length_cons, List.length_map, List.length_take]
    omega
  · simp only [buildFeedbackTable, List.map_cons, fbHeaderRow_cellTexts, List.map_map]
    refine congrArg _ (mapCongr _ _ _ fun f _ => ?_)
    simp only [Function.comp_apply, fbDataRow_cellTexts]

def fb15 : List Feedback := List.replicate 15 fbDemoEntry

theorem C4_feedback_cap_order_and_cells_witness :
    (insert_feedback_table true "<<FEEDBACK_TABLE>>" []
        { body := [Block.para fbMarkerPara], sections := [] }
      = { body := [Block.para fbMarkerPara], sections := [] })
    ∧ insert_feedback_table true "<<FEEDBACK_TABLE>>" fb15
          { body := [Block.para fbMarkerPara], sections := [] }
        = { body := [Block.para { fbMarkerPara with runs := [] },
                     Block.table (buildFeedbackTable true (fb15.take 10))], sections := [] }
    ∧ (buildFeedbackTable true (fb15.take 10)).rows.length = 1 + min fb15.length 10
    ∧ (buildFeedbackTable true (fb15.take 10)).rows.map (fun r => r.cells.map Cell.textAll)
        = ["Name", "Rating", "Comment"]
          :: (fb15.take 10).map fun f =>
              [strOrEmpty f.name, strOrEmpty f.rating, strOrEmpty f.comment] :=
  C4_feedback_cap_order_and_cells true "<<FEEDBACK_TABLE>>" fb15 [] [] fbMarkerPara []
    (by decide) (by decide) (by decide)

/-- Where `insert_attendance` puts things when the path is non-falsy,
the file exists, and the marker sits in a body paragraph: the first
marker paragraph is replaced, in place, by the attendance paragraph. -/
theorem insert_attendance_found (fs : String → Bool) (marker path : String)
    (pre post : List Block) (p : Paragraph) (sections : List Section)
    (hpath : path ≠ "") (hfs : fs path = true)
    (hpre : ∀ q ∈ blocksParas pre, pyContains q.text marker = false)
    (hp : pyContains p.text marker = true) :
    insert_attendance fs marker (some path)
        { body := pre ++ Block.para p :: post, sections := sections }
      = { body := pre ++ Block.para (attendancePara path p) :: post, sections := sections } := by
  have hbe : (path == "") = false := beq_eq_false_iff_ne.mpr hpath
  simp only [insert_attendance, hbe, hfs, Bool.not_true, Bool.or_false, Bool.false_eq_true,
    if_false]
  rw [rfpb_found _ p [Block.para (attendancePara path p)] (by simp [hp]) pre
    (fun q hq => by simp [hpre q hq]) post]
  simp

/-- When no top-level body paragraph holds the marker,
`insert_attendance` is the identity (even when the marker sits in a
table cell or a header). -/
theorem insert_attendance_noop (fs : String → Bool) (marker : String) (path? : Option String)
    (d : DocTree) (hbody : ∀ q ∈ blocksParas d.body, pyContains q.text marker = false) :
    insert_attendance fs marker path? d = d := by
  cases path? with
  | none => rfl
  | some path =>
    by_cases hg : ((path == "") || !fs path) = true
    · simp [insert_attendance, hg]
    · have hg2 : ((path == "") || !fs path) = false := by
        cases h : ((path == "") || !fs path)
        · rfl
        · exact absurd h hg
      simp only [insert_attendance, hg2, Bool.false_eq_true, if_false]
      rw [rfpb_none _ d.body fun q hq => by simp [hbody q hq]]

def attMarkerPara : Paragraph := { runs := [{ text := "<<ATTENDANCE_FILE>>" }] }

/-- **C5**: for an existing, non-falsy attendance path and the marker in
a body paragraph, `insert_attendance` replaces the marker paragraph with
a paragraph whose first run is a page break and whose second run is the
bold title `"Attendance\n"`; it embeds the asset as a picture exactly
when the path's lowercased extension is one of `.jpg/.jpeg/.png`, and
otherwise carries the literal fallback-note run and no picture. -/
theorem C5_attendance_break_title_payload (fs : String → Bool) (marker path : String)
    (pre post : List Block) (p : Paragraph) (sections : List Section)
    (hpath : path ≠ "") (hfs : fs path = true)
    (hpre : ∀ q ∈ blocksParas pre, pyContains q.text marker = false)
    (hp : pyContains p.text marker = true) :
    insert_attendance fs marker (some path)
        { body := pre ++ Block.para p :: post, sections := sections }
      = { body := pre ++ Block.para (attendancePara path p) :: post, sections := sections }
    ∧ (attendancePara path p).runs.head? = some { brks := [Brk.page] }
    ∧ (attendancePara path p).runs[1]?
        = some { text := "Attendance\n", bold := some true, fontSize := some (emuPerInch / 4) }
    ∧ (attendancePara path p).picPaths
        = (if extLower path ∈ attendanceImageExts then [path] else [])
    ∧ ((∃ r ∈ (attendancePara path p).runs, r.text = attendanceFallbackText)
        ↔ extLower path ∉ attendanceImageExts) := by
  refine ⟨insert_attendance_found fs marker path pre post p sections hpath hfs hpre hp,
    rfl, rfl, ?_, ?_⟩
  · by_cases him : extLower path ∈ attendanceImageExts
    · simp [attendancePara, Paragraph.picPaths, him]
    · simp [attendancePara, Paragraph.picPaths, him]
  · by_cases him : extLower path ∈ attendanceImageExts
    · simp only [him, not_true, iff_false]
      rintro ⟨r, hr, ht⟩
      have hr3 : r = { brks := [Brk.page] }
          ∨ r = { text := "Attendance\n", bold := some true, fontSize := some (emuPerInch / 4) }
          ∨ r = ({ pics := [(path, 8 * emuPerInch)] } : Run) := by
        simpa [attendancePara, him] using hr
      rcases hr3 with h | h | h <;> subst h
      · exact absurd ht (by decide)
      · exact absurd ht (by decide)
      · exact (show ("" : String) ≠ attendanceFallbackText by decide) ht
    · simp only [him, not_false_iff, iff_true]
      exact ⟨{ text := attendanceFallbackText }, by simp [attendancePara, him], rfl⟩

theorem C5_attendance_break_title_payload_witness :
    insert_attendance (fun s => s == "scan.jpg") "<<ATTENDANCE_FILE>>" (some "scan.jpg")
        { body := [Block.para attMarkerPara], sections := [] }
      = { body := [Block.para (attendancePara "scan.jpg" attMarkerPara)], sections := [] }
    ∧ (attendancePara "scan.jpg" attMarkerPara).runs.head? = some { brks := [Brk.page] }
    ∧ (attendancePara "scan.jpg" attMarkerPara).runs[1]?
        = some { text := "Attendance\n", bold := some true, fontSize := some (emuPerInch / 4) }
    ∧ (attendancePara "scan.jpg" attMarkerPara).picPaths
        = (if extLower "scan.jpg" ∈ attendanceImageExts then ["scan.jpg"] else [])
    ∧ ((∃ r ∈ (attendancePara "scan.jpg" attMarkerPara).runs, r.text = attendanceFallbackText)
        ↔ extLower "scan.jpg" ∉ attendanceImageExts) :=
  C5_attendance_break_title_payload (fun s => s == "scan.jpg") "<<ATTENDANCE_FILE>>" "scan.jpg"
    [] [] attMarkerPara [] (by decide) (by decide) (by decide) (by decide)

/-- **C10**: a path with (lowercased) extension `.gif` passes
`_save_file`'s image gate — `.gif` is in its accepted image set — yet
`insert_attendance` renders the textual fallback note for it and embeds
no picture, because its own whitelist is only `.jpg/.jpeg/.png`. -/
theorem C10_gif_upload_accepted_but_attendance_falls_back (fs : String → Bool)
    (marker path : String) (allow_pdf : Bool) (pre post : List Block) (p : Paragraph)
    (sections : List Section)
    (hext : extLower path = ".gif") (hpath : path ≠ "") (hfs : fs path = true)
    (hpre : ∀ q ∈ blocksParas pre, pyContains q.text marker = false)
    (hp : pyContains p.text marker = true) :
    save_file_accepts_ext path allow_pdf = true
    ∧ insert_attendance fs marker (some path)
        { body := pre ++ Block.para p :: post, sections := sections }
      = { body := pre ++ Block.para (attendancePara path p) :: post, sections := sections }
    ∧ (attendancePara path p).picPaths = []
    ∧ ∃ r ∈ (attendancePara path p).runs, r.text = attendanceFallbackText := by
  have him : extLower path ∉ attendanceImageExts := by rw [hext]; decide
  refine ⟨?_, insert_attendance_found fs marker path pre post p sections hpath hfs hpre hp,
    ?_, ?_⟩
  · unfold save_file_accepts_ext
    rw [hext]
    cases allow_pdf <;> decide
  · simp [attendancePara, Paragraph.picPaths, him]
  · exact ⟨{ text := attendanceFallbackText }, by simp [attendancePara, him], rfl⟩

theorem C10_gif_upload_accepted_but_attendance_falls_back_witness :
    save_file_accepts_ext "photo.gif" false = true
    ∧ insert_attendance (fun s => s == "photo.gif") "<<ATTENDANCE_FILE>>" (some "photo.gif")
        { body := [Block.para attMarkerPara], sections := [] }
      = { body := [Block.para (attendancePara "photo.gif" attMarkerPara)], sections := [] }
    ∧ (attendancePara "photo.gif" attMarkerPara).picPaths = []
    ∧ ∃ r ∈ (attendancePara "photo.gif" attMarkerPara).runs,
        r.text = attendanceFallbackText :=
  C10_gif_upload_accepted_but_attendance_falls_back (fun s => s == "photo.gif")
    "<<ATTENDANCE_FILE>>" "photo.gif" false [] [] attMarkerPara []
    (by decide) (by decide) (by decide) (by decide) (by decide)

/-- Where `insert_event_details_paragraph` puts things when the marker
sits in a body paragraph: the ten detail paragraphs land immediately
before the cleared marker paragraph. -/
theorem insert_event_details_found (marker : String) (e : EventRecord)
    (pre post : List Block) (p : Paragraph) (sections : List Section)
    (hpre : ∀ q ∈ blocksParas pre, pyContains q.text marker = false)
    (hp : pyContains p.text marker = true) :
    insert_event_details_paragraph marker e
        { body := pre ++ Block.para p :: post, sections := sections }
      = { body := pre ++ ((detailFields e).map fun lv => Block.para (detailPara lv))
            ++ Block.para { p with runs := [{ text := "" }] } :: post,
          sections := sections } := by
  simp only [insert_event_details_paragraph]
  rw [rfpb_found _ p ((detailFields e).map (fun lv => Block.para (detailPara lv))
      ++ [Block.para { p with runs := [{ text := "" }] }]) (by simp [hp]) pre
    (fun q hq => by simp [hpre q hq]) post]
  simp

theorem insert_event_details_noop (marker : String) (e : EventRecord) (d : DocTree)
    (hbody : ∀ q ∈ blocksParas d.body, pyContains q.text marker = false) :
    insert_event_details_paragraph marker e d = d := by
  simp only [insert_event_details_paragraph]
  rw [rfpb_none _ d.body fun q hq => by simp [hbody q hq]]

/-- Where `insert_event_photos` puts things when the list is non-empty
and the marker sits in a body paragraph. -/
theorem insert_event_photos_found (fs : String → Bool) (marker : String)
    (photos : List String) (pre post : List Block) (p : Paragraph) (sections : List Section)
    (hph : photos ≠ [])
    (hpre : ∀ q ∈ blocksParas pre, pyContains q.text marker = false)
    (hp : pyContains p.text marker = true) :
    insert_event_photos fs marker photos
        { body := pre ++ Block.para p :: post, sections := sections }
      = { body := pre ++ Block.para (galleryParagraph fs marker photos p) :: post,
          sections := sections } := by
  have hne : photos.isEmpty = false := by
    cases photos with
    | nil => exact absurd rfl hph
    | cons a as => rfl
  simp only [insert_event_photos, hne, Bool.false_eq_true, if_false]
  rw [rfpb_found _ p [Block.para (galleryParagraph fs marker photos p)] (by simp [hp]) pre
    (fun q hq => by simp [hpre q hq]) post]
  simp

theorem insert_event_photos_noop (fs : String → Bool) (marker : String)
    (photos : List String) (d : DocTree)
    (hbody : ∀ q ∈ blocksParas d.body, pyContains q.text marker = false) :
    insert_event_photos fs marker photos d = d := by
  by_cases hph : photos.isEmpty
  · simp [insert_event_photos, hph]
  · have hph2 : photos.isEmpty = false := by
      cases h : photos.isEmpty
      · rfl
      · exact absurd h hph
    simp only [insert_event_photos, hph2, Bool.false_eq_true, if_false]
    rw [rfpb_none _ d.body fun q hq => by simp [hbody q hq]]

/-- Body pass of `insert_full_page_image`: a marker hit in a body
paragraph wins before tables and headers are ever scanned, and only the
first such paragraph is rewritten. -/
theorem insert_full_page_image_found_body (fs : String → Bool) (marker path : String)
    (pre post : List Block) (p : Paragraph) (sections : List Section)
    (hpath : path ≠ "") (hfs : fs path = true)
    (hpre : ∀ q ∈ blocksParas pre, pyContains q.text marker = false)
    (hp : pyContains p.text marker = true) :
    insert_full_page_image fs marker (some path)
        { body := pre ++ Block.para p :: post, sections := sections }
      = { body := pre ++ Block.para (imgParagraph path p) :: post, sections := sections } := by
  have hbe : (path == "") = false := beq_eq_false_iff_ne.mpr hpath
  simp only [insert_full_page_image, hbe, hfs, Bool.not_true, Bool.or_false, Bool.false_eq_true,
    if_false]
  rw [rfpb_found _ p [Block.para (imgParagraph path p)] (by simp [imgProcess, hp]) pre
    (fun q hq => by simp [imgProcess, hpre q hq]) post]
  simp

/-- When the marker occurs in none of the searched places — body
paragraphs, body-table cells, section header paragraphs and header
tables — `insert_full_page_image` is the identity (no error raised). -/
theorem insert_full_page_image_noop (fs : String → Bool) (marker : String)
    (path? : Option String) (d : DocTree)
    (hbody : ∀ q ∈ blocksParas d.body, pyContains q.text marker = false)
    (htab : ∀ t ∈ blocksTables d.body, ∀ q ∈ t.allParas, pyContains q.text marker = false)
    (hsec : ∀ s ∈ d.sections, ∀ q ∈ s.header.allParas, pyContains q.text marker = false) :
    insert_full_page_image fs marker path? d = d := by
  cases path? with
  | none => rfl
  | some path =>
    by_cases hg : ((path == "") || !fs path) = true
    · simp [insert_full_page_image, hg]
    · have hg2 : ((path == "") || !fs path) = false := by
        cases h : ((path == "") || !fs path)
        · rfl
        · exact absurd h hg
      simp only [insert_full_page_image, hg2, Bool.false_eq_true, if_false]
      rw [rfpb_none _ d.body fun q hq => by simp [imgProcess, hbody q hq]]
      rw [tablesFirst_none _ d.body fun t ht q hq => by simp [imgProcess, htab t ht q hq]]
      rw [sectionsFirst_none _ d.sections fun s hs q hq => by simp [imgProcess, hsec s hs q hq]]

def demoEvent : EventRecord :=
  { title := "Tech Talk", date := some "2024-05-01", venue := some "Hall",
    academic_year := some "2023-24" }

def c3CellPara : Paragraph := { runs := [{ text := "<<MARK>>" }] }

/-- A tree whose only occurrence of the marker sits inside a body-table
cell (no body paragraph holds it). -/
def c3Doc : DocTree :=
  { body := [Block.table { rows := [{ cells := [{ paragraphs := [c3CellPara] }] }] }],
    sections := [] }

/-- **C3 counterexample**: with the marker only in a table cell, the
detail-block, gallery, attendance and feedback inserters all leave the
tree unchanged — they never search table cells — while
`insert_full_page_image` does rewrite it.  This falsifies "every
structural inserter locates its marker by the documented MarkerLocator
order (body paragraphs, then table cells, then headers)". -/
theorem C3_body_only_inserters_miss_table_cell_marker :
    insert_event_details_paragraph "<<MARK>>" demoEvent c3Doc = c3Doc
    ∧ insert_event_photos (fun _ => true) "<<MARK>>" ["a.jpg"] c3Doc = c3Doc
    ∧ insert_attendance (fun _ => true) "<<MARK>>" (some "a.jpg") c3Doc = c3Doc
    ∧ insert_feedback_table true "<<MARK>>" [fbDemoEntry] c3Doc = c3Doc
    ∧ insert_full_page_image (fun _ => true) "<<MARK>>" (some "a.jpg") c3Doc ≠ c3Doc := by
  refine ⟨?_, ?_, ?_, ?_, ?_⟩ <;> decide

/-- **C3** (amended): only `insert_full_page_image` implements the
documented search order (body paragraphs, then table cells, then
section header paragraphs and header tables, footers omitted); the
detail-block, gallery, attendance and feedback-table inserters search
top-level body paragraphs only, so a marker absent from the body
paragraphs makes them silent no-ops even when it sits in a table cell
or header.  All inserters consume only the first occurrence in their
search scope and raise no error when the marker is absent. -/
theorem C3_marker_search_scopes (fs : String → Bool) (grid : Bool) (marker path : String)
    (e : EventRecord) (photos : List String) (fb : List Feedback) (d : DocTree)
    (pre post : List Block) (p : Paragraph)
    (hbody : ∀ q ∈ blocksParas d.body, pyContains q.text marker = false)
    (hpath : path ≠ "") (hfs : fs path = true)
    (hpre : ∀ q ∈ blocksParas pre, pyContains q.text marker = false)
    (hp : pyContains p.text marker = true) :
    insert_event_details_paragraph marker e d = d
    ∧ insert_event_photos fs marker photos d = d
    ∧ insert_attendance fs marker (some path) d = d
    ∧ insert_feedback_table grid marker fb d = d
    ∧ ((∀ t ∈ blocksTables d.body, ∀ q ∈ t.allParas, pyContains q.text marker = false) →
       (∀ s ∈ d.sections, ∀ q ∈ s.header.allParas, pyContains q.text marker = false) →
        insert_full_page_image fs marker (some path) d = d)
    ∧ insert_full_page_image fs marker (some path)
          { body := pre ++ Block.para p :: post, sections := d.sections }
        = { body := pre ++ Block.para (imgParagraph path p) :: post,
            sections := d.sections } :=
  ⟨insert_event_details_noop marker e d hbody,
   insert_event_photos_noop fs marker photos d hbody,
   insert_attendance_noop fs marker (some path) d hbody,
   insert_feedback_table_noop grid marker fb d hbody,
   fun htab hsec => insert_full_page_image_noop fs marker (some path) d hbody htab hsec,
   insert_full_page_image_found_body fs marker path pre post p d.sections hpath hfs hpre hp⟩

theorem C3_marker_search_scopes_witness :
    insert_event_details_paragraph "<<MARK>>" demoEvent cleanDemoDoc = cleanDemoDoc
    ∧ insert_event_photos (fun s => s == "a.jpg") "<<MARK>>" ["a.jpg"] cleanDemoDoc
        = cleanDemoDoc
    ∧ insert_attendance (fun s => s == "a.jpg") "<<MARK>>" (some "a.jpg") cleanDemoDoc
        = cleanDemoDoc
    ∧ insert_feedback_table true "<<MARK>>" [fbDemoEntry] cleanDemoDoc = cleanDemoDoc
    ∧ ((∀ t ∈ blocksTables cleanDemoDoc.body, ∀ q ∈ t.allParas,
          pyContains q.text "<<MARK>>" = false) →
       (∀ s ∈ cleanDemoDoc.sections, ∀ q ∈ s.header.allParas,
          pyContains q.text "<<MARK>>" = false) →
        insert_full_page_image (fun s => s == "a.jpg") "<<MARK>>" (some "a.jpg") cleanDemoDoc
          = cleanDemoDoc)
    ∧ insert_full_page_image (fun s => s == "a.jpg") "<<MARK>>" (some "a.jpg")
          { body := [Block.para c3CellPara], sections := cleanDemoDoc.sections }
        = { body := [Block.para (imgParagraph "a.jpg" c3CellPara)],
            sections := cleanDemoDoc.sections } :=
  C3_marker_search_scopes (fun s => s == "a.jpg") true "<<MARK>>" "a.jpg" demoEvent
    ["a.jpg"] [fbDemoEntry] cleanDemoDoc [] [] c3CellPara
    (by decide) (by decide) (by decide) (by decide) (by decide)

/-- **C6**: a null or non-existing asset path makes the single-image and
attendance inserters exact no-ops (marker paragraph untouched); the
gallery skips exactly the missing photos, embedding the existing ones in
list order; and the `generate_report` pipeline still reaches
serialization, saving the file and appending the report row. -/
theorem C6_missing_asset_graceful (fs : String → Bool) (grid : Bool) (marker path : String)
    (photos : List String) (d d0 : DocTree) (pre post : List Block) (p : Paragraph)
    (sections : List Section) (eid : Nat) (e : EventRecord)
    (hfs : fs path = false)
    (hph : photos ≠ [])
    (hpre : ∀ q ∈ blocksParas pre, pyContains q.text marker = false)
    (hp : pyContains p.text marker = true) :
    insert_full_page_image fs marker none d = d
    ∧ insert_attendance fs marker none d = d
    ∧ insert_full_page_image fs marker (some path) d = d
    ∧ insert_attendance fs marker (some path) d = d
    ∧ insert_event_photos fs marker photos
          { body := pre ++ Block.para p :: post, sections := sections }
        = { body := pre ++ Block.para (galleryParagraph fs marker photos p) :: post,
            sections := sections }
    ∧ (galleryParagraph fs marker photos p).picPaths = photos.filter fs
    ∧ ∃ out, generate_report (some d0) fs grid eid e
        = Except.ok (out, [Effect.savedFile (reportPath e.title),
                           Effect.insertedReport eid (reportPath e.title) "submitted"]) := by
  refine ⟨rfl, rfl, ?_, ?_,
    insert_event_photos_found fs marker photos pre post p sections hph hpre hp,
    galleryParagraph_picPaths fs marker photos p,
    ⟨assemble fs grid e d0, rfl⟩⟩
  · simp [insert_full_page_image, hfs]
  · simp [insert_attendance, hfs]

def galMarkerPara : Paragraph := { runs := [{ text := "<<EVENT_PHOTOS>>" }] }

theorem C6_missing_asset_graceful_witness :
    insert_full_page_image (fun s => s == "a.jpg") "<<EVENT_PHOTOS>>" none fbDemoDoc = fbDemoDoc
    ∧ insert_attendance (fun s => s == "a.jpg") "<<EVENT_PHOTOS>>" none fbDemoDoc = fbDemoDoc
    ∧ insert_full_page_image (fun s => s == "a.jpg") "<<EVENT_PHOTOS>>" (some "missing.png")
        fbDemoDoc = fbDemoDoc
    ∧ insert_attendance (fun s => s == "a.jpg") "<<EVENT_PHOTOS>>" (some "missing.png")
        fbDemoDoc = fbDemoDoc
    ∧ insert_event_photos (fun s => s == "a.jpg") "<<EVENT_PHOTOS>>" ["a.jpg", "missing.png"]
          { body := [Block.para galMarkerPara], sections := [] }
        = { body := [Block.para (galleryParagraph (fun s => s == "a.jpg") "<<EVENT_PHOTOS>>"
              ["a.jpg", "missing.png"] galMarkerPara)], sections := [] }
    ∧ (galleryParagraph (fun s => s == "a.jpg") "<<EVENT_PHOTOS>>" ["a.jpg", "missing.png"]
        galMarkerPara).picPaths = ["a.jpg", "missing.png"].filter (fun s => s == "a.jpg")
    ∧ ∃ out, generate_report (some cleanDemoDoc) (fun s => s == "a.jpg") true 1 demoEvent
        = Except.ok (out, [Effect.savedFile (reportPath demoEvent.title),
                           Effect.insertedReport 1 (reportPath demoEvent.title) "submitted"]) :=
  C6_missing_asset_graceful (fun s => s == "a.jpg") true "<<EVENT_PHOTOS>>" "missing.png"
    ["a.jpg", "missing.png"] fbDemoDoc cleanDemoDoc [] [] galMarkerPara [] 1 demoEvent
    (by decide) (by decide) (by decide) (by decide)

/-- **C7**: with the details marker in a body paragraph, the marker
paragraph is cleared and the ten left-aligned label/value paragraphs
appear immediately before it, labels in the fixed order academic year,
event name, resource person, type, date, time, venue, department,
designation, coordinator; each paragraph is a bold label run, a tab run
and a normal value run (value defaulted to `""`).  With no marker in
any body paragraph the tree is unchanged. -/
theorem C7_detail_block_order_and_format (marker : String) (e : EventRecord)
    (pre post : List Block) (p : Paragraph) (sections : List Section)
    (hpre : ∀ q ∈ blocksParas pre, pyContains q.text marker = false)
    (hp : pyContains p.text marker = true) :
    insert_event_details_paragraph marker e
        { body := pre ++ Block.para p :: post, sections := sections }
      = { body := pre ++ ((detailFields e).map fun lv => Block.para (detailPara lv))
            ++ Block.para { p with runs := [{ text := "" }] } :: post,
          sections := sections }
    ∧ (detailFields e).length = 10
    ∧ (detailFields e).map Prod.fst
        = ["Academic Year", "Name of Event", "Resource Person", "Event Type", "Date", "Time",
           "Venue", "Department", "Designation", "Event Coordinator"]
    ∧ (∀ lv : String × Option String,
        (detailPara lv).alignment = some Align.left
        ∧ (detailPara lv).runs.map (fun r => (r.text, r.bold))
            = [(lv.1, some true), ("\t", (none : Option Bool)), (strOrEmpty lv.2, some false)])
    ∧ (∀ d : DocTree, (∀ q ∈ blocksParas d.body, pyContains q.text marker = false) →
        insert_event_details_paragraph marker e d = d) :=
  ⟨insert_event_details_found marker e pre post p sections hpre hp, rfl, rfl,
   fun _ => ⟨rfl, rfl⟩, fun d hd => insert_event_details_noop marker e d hd⟩

def detMarkerPara : Paragraph := { runs := [{ text := "<<EVENT_DETAILS>>" }] }

theorem C7_detail_block_order_and_format_witness :
    insert_event_details_paragraph "<<EVENT_DETAILS>>" demoEvent
        { body := [Block.para detMarkerPara], sections := [] }
      = { body := ((detailFields demoEvent).map fun lv => Block.para (detailPara lv))
            ++ [Block.para { detMarkerPara with runs := [{ text := "" }] }],
          sections := [] }
    ∧ (detailFields demoEvent).length = 10
    ∧ (detailFields demoEvent).map Prod.fst
        = ["Academic Year", "Name of Event", "Resource Person", "Event Type", "Date", "Time",
           "Venue", "Department", "Designation", "Event Coordinator"]
    ∧ (∀ lv : String × Option String,
        (detailPara lv).alignment = some Align.left
        ∧ (detailPara lv).runs.map (fun r => (r.text, r.bold))
            = [(lv.1, some true), ("\t", (none : Option Bool)), (strOrEmpty lv.2, some false)])
    ∧ (∀ d : DocTree, (∀ q ∈ blocksParas d.body, pyContains q.text "<<EVENT_DETAILS>>" = false) →
        insert_event_details_paragraph "<<EVENT_DETAILS>>" demoEvent d = d) :=
  C7_detail_block_order_and_format "<<EVENT_DETAILS>>" demoEvent [] [] detMarkerPara []
    (by decide) (by decide)

/-- **C9**: a failing template load aborts with no file written and no
report row; a successful load runs the pipeline and produces exactly two
effects in order — the file save, then exactly one
`(event_id, file_path, "submitted")` report-row insert. -/
theorem C9_report_row_once_after_save (fs : String → Bool) (grid : Bool) (eid : Nat)
    (e : EventRecord) (d0 : DocTree) :
    generate_report none fs grid eid e = Except.error ()
    ∧ (∃ out, generate_report (some d0) fs grid eid e
        = Except.ok (out, [Effect.savedFile (reportPath e.title),
                           Effect.insertedReport eid (reportPath e.title) "submitted"]))
    ∧ ([Effect.savedFile (reportPath e.title),
        Effect.insertedReport eid (reportPath e.title) "submitted"].filter
          Effect.isInsertedReport).length = 1 :=
  ⟨rfl, ⟨assemble fs grid e d0, rfl⟩, rfl⟩

end ReportGen
